import Mathlib

/-!
Verification of `cmd/lotus-storage-miner/run.go` (the `run` command of the
lotus storage-miner daemon) against its natural-language specification.

The Go code is shallowly embedded: each remote/library call that can fail is
represented by an `Except String _` outcome supplied by an environment record,
and the control flow of the Go source is transcribed into Lean functions that
return the sequence of observable events (calls made, log lines emitted)
together with the command's result.
-/

namespace LotusRun

/-! ## Pledge loop (run.go lines 179–215)

The `pledge-sector` goroutine: each iteration waits on
`select { case <-ctx.Done(): ...; case <-time.After(...): }`, then calls
`nodeApi.WorkerStats(ctx)`; on error it logs and `return`s (terminating the
goroutine).  On success it logs the capacity snapshot, and if
`LocalFree + RemotesFree > 0` it calls `nodeApi.PledgeSector(ctx)`, logging
either the error or a success message, and in both cases falls through to the
next loop iteration. -/

/-- Worker statistics, as consumed by the pledge goroutine
(`wstat` fields used at run.go lines 203–205). -/
structure WorkerStats where
  localFree : Nat
  localReserved : Nat
  localTotal : Nat
  remotesFree : Nat
  remotesTotal : Nat
deriving DecidableEq, Repr

/-- `LocalTotal + RemotesTotal - LocalReserved`, the second figure logged at
run.go line 204 (computed in `Int` as Go `int` arithmetic). -/
def totalAvail (w : WorkerStats) : Int :=
  (w.localTotal : Int) + (w.remotesTotal : Int) - (w.localReserved : Int)

/-- What the environment feeds one iteration of the pledge loop: either the
lifecycle context is cancelled (the `<-ctx.Done()` arm of the `select` fires),
or the timer fires and the iteration proceeds with the given outcome of
`WorkerStats` and (should it be called) of `PledgeSector`. -/
inductive CycleInput
  | cancelled
  | stats (query : Except String WorkerStats) (pledge : Except String Unit)
deriving Repr

/-- Observable events of the pledge goroutine: remote calls made and log
lines emitted, in program order. -/
inductive PEvent
  | logEnd
  | queryCall
  | logStatsError (e : String)
  | logSnapshot (free : Nat) (avail : Int)
  | pledgeCall
  | logPledgeError (e : String)
  | logPledgeSuccess
deriving DecidableEq, Repr

/-- One iteration of the `for { select ... }` loop body (run.go lines
189–213).  Returns the events of the iteration and whether the loop
continues (`false` exactly when the body executes `return`). -/
def pledgeCycle : CycleInput → List PEvent × Bool
  | .cancelled => ([.logEnd], false)
  | .stats (.error e) _ => ([.queryCall, .logStatsError e], false)
  | .stats (.ok w) pledge =>
    let free := w.localFree + w.remotesFree
    let pre : List PEvent := [.queryCall, .logSnapshot free (totalAvail w)]
    if free > 0 then
      match pledge with
      | .error e => (pre ++ [.pledgeCall, .logPledgeError e], true)
      | .ok _ => (pre ++ [.pledgeCall, .logPledgeSuccess], true)
    else
      (pre, true)

/-- The pledge loop run against a finite script of iteration inputs: the
events of each iteration in order, cutting the script short as soon as an
iteration terminates the goroutine. -/
def pledgeLoop : List CycleInput → List PEvent
  | [] => []
  | i :: rest =>
    let (evs, cont) := pledgeCycle i
    evs ++ (if cont then pledgeLoop rest else [])

/-- `true` when the event is one of the two remote calls of the loop. -/
def isRemoteCall : PEvent → Bool
  | .queryCall => true
  | .pledgeCall => true
  | _ => false

/-- `true` when the event logs a query or submission error. -/
def isErrorLog : PEvent → Bool
  | .logStatsError _ => true
  | .logPledgeError _ => true
  | _ => false

/-- `true` iff no remote call (capacity query or submission) occurs after any
query-error or submission-error log in the event list. -/
def noCallAfterErrorLog : List PEvent → Bool
  | [] => true
  | e :: rest =>
    if isErrorLog e then rest.all (fun x => !isRemoteCall x)
    else noCallAfterErrorLog rest

/-! ## Bootstrap and serve (run.go lines 63–147, 217)

`runCmd.Action` is a strictly sequential chain of fallible steps followed by
`srv.Serve`.  The environment record `World` supplies the outcome of each
external call; `Flags` holds the command-line options the chain consults. -/

/-- The command-line options `runCmd.Action` reads (run.go lines 31–61, 92).
`apiSet` is `cctx.IsSet("api")`, `apiValue` is `cctx.String("api")`. -/
structure Flags where
  storageRepoPath : String
  nosync : Bool
  apiSet : Bool
  apiValue : String
  pledgeSector : Bool

/-- Outcomes of the external calls made during bootstrap, in the order the
code makes them.  `persistedEndpoint` is the API endpoint stored in the
repository before the run. -/
structure World where
  getFullNodeAPI : Except String Unit
  versionResult : Except String Nat
  syncWaitResult : Except String Unit
  repoNewFS : Except String Unit
  repoExists : Except String Bool
  persistedEndpoint : String
  setAPIEndpointResult : Except String Unit
  nodeInternalResult : Except String Unit
  apiEndpointRead : Except String Unit
  netAddrsListen : Except String (List String)
  netConnect : Except String Unit
  listenResult : Except String Unit
  serveResult : Except String Unit

/-- Observable bootstrap steps, emitted when the corresponding external call
is made (before its outcome is inspected). -/
inductive Step
  | getFullNodeAPI
  | getVersion
  | syncWait
  | repoNewFS
  | repoExists
  | nodeNew
  | setAPIEndpoint (addr : String)
  | apiEndpointRead
  | netAddrsListen
  | netConnect
  | listen (endpoint : String)
  | serve
deriving DecidableEq, Repr

/-- The error message built at run.go line 81:
`xerrors.Errorf("lotus-daemon API version doesn't match: local: ", api.Version{APIVersion: build.APIVersion})`.
The format string has no verb for its one argument, so Go's `fmt` appends the
argument as `%!(EXTRA ...)`; the argument is `api.Version` holding only the
*local* `build.APIVersion` — the remote version `v` is not passed.  The
rendering of the extra argument is abstracted as the decimal of its
`APIVersion` field; what matters is that it is a function of the local
version alone. -/
def versionMismatchMsg (buildAPIVersion : Nat) : String :=
  "lotus-daemon API version doesn't match: local: %!(EXTRA api.Version=\x7b"
    ++ toString buildAPIVersion ++ "\x7d)"

/-- The error message built at run.go line 103 when the repo does not exist. -/
def repoNotInitializedMsg (path : String) : String :=
  "repo at '" ++ path ++ "' is not initialized, run 'lotus-storage-miner init' to set it up"

/-- Reads a decimal numeral: `none` unless every character is a digit. -/
def digitsToNat (acc : Nat) : List Char → Option Nat
  | [] => some acc
  | c :: cs =>
    if c.isDigit then digitsToNat (acc * 10 + (c.toNat - '0'.toNat)) cs
    else none

/-- The decimal value of a nonempty all-digit string, else `none`. -/
def portToNat (s : String) : Option Nat :=
  if s.data = [] then none else digitsToNat 0 s.data

/-- Model of `multiaddr.NewMultiaddr("/ip4/127.0.0.1/tcp/" + port)`
(run.go line 114): parsing succeeds iff `port` is a decimal numeral below
65536, and the resulting multiaddr is rendered back as the same string. -/
def newMultiaddr (port : String) : Except String String :=
  match portToNat port with
  | some n =>
    if n < 65536 then Except.ok ("/ip4/127.0.0.1/tcp/" ++ port)
    else Except.error ("failed to parse multiaddr /ip4/127.0.0.1/tcp/" ++ port)
  | none => Except.error ("failed to parse multiaddr /ip4/127.0.0.1/tcp/" ++ port)

/-- `node.New` (run.go lines 107–122): applies the
`ApplyIf(cctx.IsSet("api"), Override(SetApiEndpointKey, ...))` binding —
parsing the override multiaddr and persisting it with `lr.SetAPIEndpoint` —
then builds the remaining subsystems.  Returns the steps taken inside the
construction, its result, and the repository's API endpoint afterwards. -/
def nodeNew (fl : Flags) (w : World) : List Step × Except String Unit × String :=
  if fl.apiSet then
    match newMultiaddr fl.apiValue with
    | .error e => ([], .error e, w.persistedEndpoint)
    | .ok addr =>
      match w.setAPIEndpointResult with
      | .error e => ([Step.setAPIEndpoint addr], .error e, w.persistedEndpoint)
      | .ok _ => ([Step.setAPIEndpoint addr], w.nodeInternalResult, addr)
  else
    ([], w.nodeInternalResult, w.persistedEndpoint)

/-- The bootstrap chain after a successful `node.New` whose construction
steps were `inner`, whose result is `res` and which left the repository's
API endpoint at `endpoint`: `r.APIEndpoint()`, `NetAddrsListen`,
`NetConnect`, `manet.Listen`, then serving (run.go lines 123–147, 217). -/
def afterNode (w : World) (inner : List Step) (res : Except String Unit)
    (endpoint : String) : List Step × Except String Unit :=
  match res with
  | .error e =>
    ([Step.repoNewFS, Step.repoExists, Step.nodeNew] ++ inner, .error e)
  | .ok _ =>
  let t := [Step.repoNewFS, Step.repoExists, Step.nodeNew] ++ inner
    ++ [Step.apiEndpointRead]
  match w.apiEndpointRead with
  | .error e => (t, .error e)
  | .ok _ =>
  match w.netAddrsListen with
  | .error e => (t ++ [Step.netAddrsListen], .error e)
  | .ok _ =>
  match w.netConnect with
  | .error e => (t ++ [Step.netAddrsListen, Step.netConnect], .error e)
  | .ok _ =>
  let t2 := t ++ [Step.netAddrsListen, Step.netConnect, Step.listen endpoint]
  match w.listenResult with
  | .error e => (t2, .error ("could not listen: " ++ e))
  | .ok _ => (t2 ++ [Step.serve], w.serveResult)

/-- The bootstrap chain from `repo.NewFS` (run.go line 93) through
`srv.Serve` (line 217), i.e. everything after the sync-status check:
repo open, repo existence check, `node.New`, then `afterNode`.  Returns the
steps taken (relative to this stage) and the result. -/
def afterSync (fl : Flags) (w : World) : List Step × Except String Unit :=
  match w.repoNewFS with
  | .error e => ([Step.repoNewFS], .error e)
  | .ok _ =>
  match w.repoExists with
  | .error e => ([Step.repoNewFS, Step.repoExists], .error e)
  | .ok false =>
    ([Step.repoNewFS, Step.repoExists],
      .error (repoNotInitializedMsg fl.storageRepoPath))
  | .ok true =>
    afterNode w (nodeNew fl w).1 (nodeNew fl w).2.1 (nodeNew fl w).2.2

/-- `runCmd.Action` (run.go lines 63–218) as a sequential chain: each step's
event is appended to the trace when the call is made, and any error returns
immediately with that error.  After a fully successful bootstrap the final
result is that of `srv.Serve`. -/
def runAction (buildAPIVersion : Nat) (fl : Flags) (w : World) :
    List Step × Except String Unit :=
  match w.getFullNodeAPI with
  | .error e => ([Step.getFullNodeAPI], .error e)
  | .ok _ =>
  match w.versionResult with
  | .error e => ([Step.getFullNodeAPI, Step.getVersion], .error e)
  | .ok v =>
  if v = buildAPIVersion then
    if fl.nosync then
      ([Step.getFullNodeAPI, Step.getVersion] ++ (afterSync fl w).1,
        (afterSync fl w).2)
    else
      match w.syncWaitResult with
      | .error e =>
        ([Step.getFullNodeAPI, Step.getVersion, Step.syncWait],
          .error ("sync wait: " ++ e))
      | .ok _ =>
        ([Step.getFullNodeAPI, Step.getVersion, Step.syncWait]
            ++ (afterSync fl w).1,
          (afterSync fl w).2)
  else
    ([Step.getFullNodeAPI, Step.getVersion],
      .error (versionMismatchMsg buildAPIVersion))

/-- The canonical complete order of the post-sync bootstrap steps: what the
chain performs when nothing fails.  Every actual post-sync trace is a prefix
of this list. -/
def fullBootTrace (fl : Flags) (w : World) : List Step :=
  [Step.repoNewFS, Step.repoExists, Step.nodeNew] ++ (nodeNew fl w).1
    ++ [Step.apiEndpointRead, Step.netAddrsListen, Step.netConnect,
        Step.listen (nodeNew fl w).2.2, Step.serve]

/-- The canonical complete order of all bootstrap steps of `runCmd.Action`
(with the sync wait skipped when `nosync` is set), ending in serving. -/
def fullRunTrace (fl : Flags) (w : World) : List Step :=
  [Step.getFullNodeAPI, Step.getVersion]
    ++ (if fl.nosync then [] else [Step.syncWait])
    ++ fullBootTrace fl w

/-! ## Request routing and the auth gate (run.go lines 149–163)

```
mux.Handle("/rpc/v0", rpcServer)
mux.PathPrefix("/remote").HandlerFunc(minerapi.(*impl.StorageMinerAPI).ServeRemote)
mux.PathPrefix("/").Handler(http.DefaultServeMux) // pprof
ah := &auth.Handler{Verify: minerapi.AuthVerify, Next: mux.ServeHTTP}
srv := &http.Server{Handler: ah}
```

`gorilla/mux` tries routes in registration order and dispatches to the first
match; `Handle` with a plain path is an exact-path match and `PathPrefix` is a
literal string-prefix match. -/

/-- The handler a request can be dispatched to. -/
inductive RouteTarget
  | rpcServer
  | serveRemote
  | pprofMux
  | notFound
deriving DecidableEq, Repr

/-- Literal string-prefix test (the matching `PathPrefix` performs),
character by character. -/
def strPrefixOf (p s : String) : Bool :=
  p.data.isPrefixOf s.data

/-- The router built at run.go lines 149–156: first match wins in
registration order — exact `/rpc/v0`, then prefix `/remote`, then the
catch-all prefix `/` (pprof); a path matching none falls to gorilla/mux's
not-found handler. -/
def muxRoute (path : String) : RouteTarget :=
  if path = "/rpc/v0" then .rpcServer
  else if strPrefixOf "/remote" path then .serveRemote
  else if strPrefixOf "/" path then .pprofMux
  else .notFound

/-- An inbound HTTP request, reduced to the data this surface inspects:
the credential it presents and its path. -/
structure Request where
  credential : String
  path : String

/-- The server's response, reduced to what this surface determines:
an authentication-failure rejection, or dispatch to a route target. -/
inductive Response
  | authFailure
  | handled (t : RouteTarget)
deriving DecidableEq, Repr

/-- Modelled from the spec: `auth.Handler` (package `lib/auth`) is not part
of this repository snapshot — run.go only constructs it with
`Verify: minerapi.AuthVerify` and `Next: mux.ServeHTTP`.  Per the spec
(§4.6), it invokes the verification predicate with the request's credential;
on failure it returns an authentication-failure response and does not forward
the request; on success it forwards the request unmodified to `Next`. -/
def authHandler (verify : String → Bool) (next : Request → Response)
    (req : Request) : Response :=
  if verify req.credential then next req else .authFailure

/-- The full serving stack wired at run.go lines 158–163: the HTTP server's
handler is the auth gate, whose `Next` is the router. -/
def handleRequest (verify : String → Bool) (req : Request) : Response :=
  authHandler verify (fun r => .handled (muxRoute r.path)) req

/-! ## Shutdown goroutine (run.go lines 165–177)

```
<-sigChan
log.Warn("Shutting down..")
if err := stop(context.TODO()); err != nil { log.Errorf("graceful shutting down failed: %s", err) }
if err := srv.Shutdown(context.TODO()); err != nil { log.Errorf("shutting down RPC server failed: %s", err) }
log.Warn("Graceful shutdown successful")
```
-/

/-- Observable events of the shutdown goroutine after the first signal is
received: the two stop calls and the log lines, in program order. -/
inductive SEvent
  | logShuttingDown
  | nodeStopCall
  | logNodeStopError (e : String)
  | listenerShutdownCall
  | logListenerShutdownError (e : String)
  | logGracefulSuccess
deriving DecidableEq, Repr

/-- The shutdown goroutine body (run.go lines 167–175), given the outcome of
`stop(context.TODO())` and of `srv.Shutdown(context.TODO())`. -/
def shutdownHandler (stopResult shutdownResult : Except String Unit) :
    List SEvent :=
  [SEvent.logShuttingDown, SEvent.nodeStopCall]
    ++ (match stopResult with
        | .error e => [SEvent.logNodeStopError e]
        | .ok _ => [])
    ++ [SEvent.listenerShutdownCall]
    ++ (match shutdownResult with
        | .error e => [SEvent.logListenerShutdownError e]
        | .ok _ => [])
    ++ [SEvent.logGracefulSuccess]

/-! ## Auxiliary predicates and concrete environments -/

/-- Every external call up to `NetConnect` succeeds (with the remote version
matching the local build), leaving the override application, the persisted
endpoint and the listen/serve outcomes free. -/
def bootstrapCallsOk (buildAPIVersion : Nat) (fl : Flags) (w : World) : Prop :=
  w.getFullNodeAPI = Except.ok () ∧
  w.versionResult = Except.ok buildAPIVersion ∧
  (fl.nosync = true ∨ w.syncWaitResult = Except.ok ()) ∧
  w.repoNewFS = Except.ok () ∧
  w.repoExists = Except.ok true ∧
  w.setAPIEndpointResult = Except.ok () ∧
  w.nodeInternalResult = Except.ok () ∧
  w.apiEndpointRead = Except.ok () ∧
  (∃ addrs, w.netAddrsListen = Except.ok addrs) ∧
  w.netConnect = Except.ok ()

/-- A fully successful environment with remote version `bv` and persisted
endpoint `ep`. -/
def allOkWorld (bv : Nat) (ep : String) : World where
  getFullNodeAPI := .ok ()
  versionResult := .ok bv
  syncWaitResult := .ok ()
  repoNewFS := .ok ()
  repoExists := .ok true
  persistedEndpoint := ep
  setAPIEndpointResult := .ok ()
  nodeInternalResult := .ok ()
  apiEndpointRead := .ok ()
  netAddrsListen := .ok []
  netConnect := .ok ()
  listenResult := .ok ()
  serveResult := .ok ()

/-- Baseline flags: defaults of the `run` command (`api` flag not set by the
user, sync check on). -/
def defaultFlags : Flags where
  storageRepoPath := "~/.lotusstorage"
  nosync := false
  apiSet := false
  apiValue := "2345"
  pledgeSector := false

/-- A worker-stats snapshot with one free local worker. -/
def oneFreeStats : WorkerStats where
  localFree := 1
  localReserved := 0
  localTotal := 1
  remotesFree := 0
  remotesTotal := 0

/-- A two-iteration pledge-loop script: the first iteration's submission
fails, the second iteration is offered normally. -/
def pledgeErrScript : List CycleInput :=
  [CycleInput.stats (Except.ok oneFreeStats) (Except.error "pledge failed"),
   CycleInput.stats (Except.ok oneFreeStats) (Except.ok ())]

/-! ## Theorems -/

/-- The steps taken inside `node.New` are at most the one
`SetAPIEndpoint` call of the conditional override. -/
theorem nodeNew_inner_cases (fl : Flags) (w : World) :
    (nodeNew fl w).1 = [] ∨
    ∃ a, (nodeNew fl w).1 = [Step.setAPIEndpoint a] := by
  unfold nodeNew
  repeat' split
  all_goals first
    | exact Or.inl rfl
    | exact Or.inr ⟨_, rfl⟩

/-- Serving is never a step inside `node.New`. -/
theorem serve_notMem_nodeNew (fl : Flags) (w : World) :
    Step.serve ∉ (nodeNew fl w).1 := by
  rcases nodeNew_inner_cases fl w with h | ⟨a, h⟩ <;> simp [h]

/-- If the post-node stage reaches `srv.Serve` its result is the serve
result and serving is its last step; otherwise it returns an error. -/
theorem afterNode_serve (w : World) (inner : List Step)
    (res : Except String Unit) (ep : String) (hin : Step.serve ∉ inner) :
    (Step.serve ∈ (afterNode w inner res ep).1 →
      (afterNode w inner res ep).2 = w.serveResult ∧
      ∃ t, (afterNode w inner res ep).1 = t ++ [Step.serve]) ∧
    (Step.serve ∉ (afterNode w inner res ep).1 →
      ∃ e, (afterNode w inner res ep).2 = Except.error e) := by
  cases res with
  | error e =>
    refine ⟨fun hmem => absurd hmem ?_, fun _ => ⟨e, rfl⟩⟩
    simp [afterNode, hin]
  | ok u =>
    cases hr : w.apiEndpointRead with
    | error e =>
      refine ⟨fun hmem => absurd hmem ?_, fun _ => ⟨e, ?_⟩⟩ <;>
        simp [afterNode, hr, hin]
    | ok u1 =>
      cases ha : w.netAddrsListen with
      | error e =>
        refine ⟨fun hmem => absurd hmem ?_, fun _ => ⟨e, ?_⟩⟩ <;>
          simp [afterNode, hr, ha, hin]
      | ok addrs =>
        cases hc : w.netConnect with
        | error e =>
          refine ⟨fun hmem => absurd hmem ?_, fun _ => ⟨e, ?_⟩⟩ <;>
            simp [afterNode, hr, ha, hc, hin]
        | ok u2 =>
          cases hl : w.listenResult with
          | error e =>
            refine ⟨fun hmem => absurd hmem ?_,
              fun _ => ⟨"could not listen: " ++ e, ?_⟩⟩ <;>
              simp [afterNode, hr, ha, hc, hl, hin]
          | ok u3 =>
            refine ⟨fun _ => ⟨?_, ?_⟩, fun hn => absurd ?_ hn⟩
            · simp [afterNode, hr, ha, hc, hl]
            · exact ⟨[Step.repoNewFS, Step.repoExists, Step.nodeNew] ++ inner
                ++ [Step.apiEndpointRead, Step.netAddrsListen,
                    Step.netConnect, Step.listen ep],
                by simp [afterNode, hr, ha, hc, hl]⟩
            · simp [afterNode, hr, ha, hc, hl]

/-- The post-node stage's trace is a prefix of the canonical complete
post-repo order of steps. -/
theorem afterNode_prefix (w : World) (inner : List Step)
    (res : Except String Unit) (ep : String) :
    (afterNode w inner res ep).1 <+:
      [Step.repoNewFS, Step.repoExists, Step.nodeNew] ++ inner
        ++ [Step.apiEndpointRead, Step.netAddrsListen, Step.netConnect,
            Step.listen ep, Step.serve] := by
  cases res with
  | error e =>
    exact ⟨[Step.apiEndpointRead, Step.netAddrsListen, Step.netConnect,
      Step.listen ep, Step.serve], by simp [afterNode]⟩
  | ok u =>
    cases hr : w.apiEndpointRead with
    | error e =>
      exact ⟨[Step.netAddrsListen, Step.netConnect, Step.listen ep,
        Step.serve], by simp [afterNode, hr]⟩
    | ok u1 =>
      cases ha : w.netAddrsListen with
      | error e =>
        exact ⟨[Step.netConnect, Step.listen ep, Step.serve],
          by simp [afterNode, hr, ha]⟩
      | ok addrs =>
        cases hc : w.netConnect with
        | error e =>
          exact ⟨[Step.listen ep, Step.serve], by simp [afterNode, hr, ha, hc]⟩
        | ok u2 =>
          cases hl : w.listenResult with
          | error e =>
            exact ⟨[Step.serve], by simp [afterNode, hr, ha, hc, hl]⟩
          | ok u3 =>
            exact ⟨[], by simp [afterNode, hr, ha, hc, hl]⟩

/-- If the post-sync stage reaches `srv.Serve` its result is the serve
result and serving is its last step; otherwise it returns an error. -/
theorem afterSync_serve_characterization (fl : Flags) (w : World) :
    (Step.serve ∈ (afterSync fl w).1 →
      (afterSync fl w).2 = w.serveResult ∧
      ∃ t, (afterSync fl w).1 = t ++ [Step.serve]) ∧
    (Step.serve ∉ (afterSync fl w).1 →
      ∃ e, (afterSync fl w).2 = Except.error e) := by
  cases hn : w.repoNewFS with
  | error e =>
    refine ⟨fun hmem => absurd hmem ?_, fun _ => ⟨e, ?_⟩⟩ <;>
      simp [afterSync, hn]
  | ok u =>
    cases he : w.repoExists with
    | error e =>
      refine ⟨fun hmem => absurd hmem ?_, fun _ => ⟨e, ?_⟩⟩ <;>
        simp [afterSync, hn, he]
    | ok b =>
      cases b with
      | false =>
        refine ⟨fun hmem => absurd hmem ?_,
          fun _ => ⟨repoNotInitializedMsg fl.storageRepoPath, ?_⟩⟩ <;>
          simp [afterSync, hn, he]
      | true =>
        have h := afterNode_serve w (nodeNew fl w).1 (nodeNew fl w).2.1
          (nodeNew fl w).2.2 (serve_notMem_nodeNew fl w)
        simpa [afterSync, hn, he] using h

/-- Whatever fails, the post-sync stage's trace is a prefix of the canonical
complete post-sync order of steps. -/
theorem afterSync_prefix (fl : Flags) (w : World) :
    (afterSync fl w).1 <+: fullBootTrace fl w := by
  cases hn : w.repoNewFS with
  | error e =>
    exact ⟨[Step.repoExists, Step.nodeNew] ++ (nodeNew fl w).1
      ++ [Step.apiEndpointRead, Step.netAddrsListen, Step.netConnect,
          Step.listen (nodeNew fl w).2.2, Step.serve],
      by simp [afterSync, fullBootTrace, hn]⟩
  | ok u =>
    cases he : w.repoExists with
    | error e =>
      exact ⟨[Step.nodeNew] ++ (nodeNew fl w).1
        ++ [Step.apiEndpointRead, Step.netAddrsListen, Step.netConnect,
            Step.listen (nodeNew fl w).2.2, Step.serve],
        by simp [afterSync, fullBootTrace, hn, he]⟩
    | ok b =>
      cases b with
      | false =>
        exact ⟨[Step.nodeNew] ++ (nodeNew fl w).1
          ++ [Step.apiEndpointRead, Step.netAddrsListen, Step.netConnect,
              Step.listen (nodeNew fl w).2.2, Step.serve],
          by simp [afterSync, fullBootTrace, hn, he]⟩
      | true =>
        have h := afterNode_prefix w (nodeNew fl w).1 (nodeNew fl w).2.1
          (nodeNew fl w).2.2
        simpa [afterSync, fullBootTrace, hn, he] using h

/-- When the full-node API handle, the version check and the sync gate all
pass, the run's trace is the pre-sync steps followed by the post-sync
stage's trace, and the result is the post-sync stage's result. -/
theorem runAction_trace_decomp (bv : Nat) (fl : Flags) (w : World)
    (h1 : w.getFullNodeAPI = Except.ok ())
    (h2 : w.versionResult = Except.ok bv)
    (h3 : fl.nosync = true ∨ w.syncWaitResult = Except.ok ()) :
    (runAction bv fl w).1
      = [Step.getFullNodeAPI, Step.getVersion]
          ++ (if fl.nosync then [] else [Step.syncWait])
          ++ (afterSync fl w).1 ∧
    (runAction bv fl w).2 = (afterSync fl w).2 := by
  rcases h3 with h3 | h3
  · constructor <;> simp [runAction, h1, h2, h3]
  · cases hns : fl.nosync with
    | true => constructor <;> simp [runAction, h1, h2, hns]
    | false => constructor <;> simp [runAction, h1, h2, hns, h3]

/-- The pre-sync steps are only the full-node API acquisition, the version
query and possibly the sync wait. -/
theorem pre_steps (fl : Flags) (s : Step) :
    s ∈ [Step.getFullNodeAPI, Step.getVersion]
        ++ (if fl.nosync then [] else [Step.syncWait]) →
    s = Step.getFullNodeAPI ∨ s = Step.getVersion ∨ s = Step.syncWait := by
  cases hns : fl.nosync with
  | false =>
    intro h
    simp [hns] at h
    tauto
  | true =>
    intro h
    simp [hns] at h
    tauto

set_option maxRecDepth 4096 in
/-- C2 (counterexample): with local build version 7 and remote version 9,
bootstrap fails with the version-mismatch error, but the message — built at
run.go line 81 from a format string whose only argument is
`api.Version{APIVersion: build.APIVersion}` — does not contain the remote
version value 9 at all, refuting the claim that it includes both values. -/
theorem C2_counterexample :
    (runAction 7 defaultFlags
        { allOkWorld 7 "/ip4/127.0.0.1/tcp/2345" with
            versionResult := Except.ok 9 }).2
      = Except.error (versionMismatchMsg 7) ∧
    ¬ (toString (9 : Nat)).data <:+: (versionMismatchMsg 7).data := by
  constructor
  · simp [runAction, defaultFlags, allOkWorld]
  · decide

/-- C2 (amended): for every pair of versions with remote ≠ local, bootstrap
fails with the version-mismatch error before `node.New` is invoked and
before serving; the error message contains the local version value, but not
the remote one (it is a function of the local version alone). -/
theorem C2_version_mismatch_fails_before_node :
    ∀ (buildV remoteV : Nat) (fl : Flags) (w : World),
      w.getFullNodeAPI = Except.ok () →
      w.versionResult = Except.ok remoteV →
      remoteV ≠ buildV →
      (runAction buildV fl w).2 = Except.error (versionMismatchMsg buildV) ∧
      (toString buildV).data <:+: (versionMismatchMsg buildV).data ∧
      Step.nodeNew ∉ (runAction buildV fl w).1 ∧
      Step.serve ∉ (runAction buildV fl w).1 := by
  intro buildV remoteV fl w h1 h2 h3
  have htr : runAction buildV fl w
      = ([Step.getFullNodeAPI, Step.getVersion],
          Except.error (versionMismatchMsg buildV)) := by
    simp [runAction, h1, h2, h3]
  refine ⟨by rw [htr], ?_, by rw [htr]; simp, by rw [htr]; simp⟩
  exact ⟨"lotus-daemon API version doesn't match: local: %!(EXTRA api.Version=\x7b".data,
    "\x7d)".data,
    by simp [versionMismatchMsg, String.data_append, List.append_assoc]⟩

/-- C2 (witness): the amended theorem applied at local version 7, remote
version 9, with every other call succeeding. -/
theorem C2_witness :
    (runAction 7 defaultFlags
        { allOkWorld 7 "/ip4/127.0.0.1/tcp/2345" with
            versionResult := Except.ok 9 }).2
      = Except.error (versionMismatchMsg 7) ∧
    Step.nodeNew ∉ (runAction 7 defaultFlags
        { allOkWorld 7 "/ip4/127.0.0.1/tcp/2345" with
            versionResult := Except.ok 9 }).1 := by
  have h := C2_version_mismatch_fails_before_node 7 9 defaultFlags
    { allOkWorld 7 "/ip4/127.0.0.1/tcp/2345" with versionResult := Except.ok 9 }
    rfl rfl (by decide)
  exact ⟨h.1, h.2.2.1⟩

/-- C6: when the repository-existence check reports the repo missing,
bootstrap fails with the error naming the repository path (the path is a
substring of the message), and this happens before `node.New` is invoked,
before any listener is opened and before serving. -/
theorem C6_uninitialized_repo_fails_early :
    ∀ (buildV : Nat) (fl : Flags) (w : World),
      w.getFullNodeAPI = Except.ok () →
      w.versionResult = Except.ok buildV →
      fl.nosync = true ∨ w.syncWaitResult = Except.ok () →
      w.repoNewFS = Except.ok () →
      w.repoExists = Except.ok false →
      (runAction buildV fl w).2
          = Except.error (repoNotInitializedMsg fl.storageRepoPath) ∧
      fl.storageRepoPath.data
          <:+: (repoNotInitializedMsg fl.storageRepoPath).data ∧
      Step.nodeNew ∉ (runAction buildV fl w).1 ∧
      (∀ ep, Step.listen ep ∉ (runAction buildV fl w).1) ∧
      Step.serve ∉ (runAction buildV fl w).1 := by
  intro buildV fl w h1 h2 h3 h4 h5
  have has : afterSync fl w
      = ([Step.repoNewFS, Step.repoExists],
          Except.error (repoNotInitializedMsg fl.storageRepoPath)) := by
    simp [afterSync, h4, h5]
  obtain ⟨htr, hres⟩ := runAction_trace_decomp buildV fl w h1 h2 h3
  refine ⟨by rw [hres, has], ?_, ?_, ?_, ?_⟩
  · exact ⟨"repo at '".data,
      "' is not initialized, run 'lotus-storage-miner init' to set it up".data,
      by simp [repoNotInitializedMsg, String.data_append, List.append_assoc]⟩
  · rw [htr, has]
    cases hns : fl.nosync <;> simp [hns]
  · intro ep
    rw [htr, has]
    cases hns : fl.nosync <;> simp [hns]
  · rw [htr, has]
    cases hns : fl.nosync <;> simp [hns]

/-- C6 (witness): the theorem applied at a concrete uninitialized
repository at path `/tmp/repo`. -/
theorem C6_witness :
    (runAction 7
      { defaultFlags with
          storageRepoPath := "/tmp/repo", nosync := true }
      { allOkWorld 7 "/ip4/127.0.0.1/tcp/2345" with
          repoExists := Except.ok false }).2
      = Except.error (repoNotInitializedMsg "/tmp/repo") ∧
    Step.nodeNew ∉ (runAction 7
      { defaultFlags with
          storageRepoPath := "/tmp/repo", nosync := true }
      { allOkWorld 7 "/ip4/127.0.0.1/tcp/2345" with
          repoExists := Except.ok false }).1 := by
  have h := C6_uninitialized_repo_fails_early 7
    { defaultFlags with
        storageRepoPath := "/tmp/repo", nosync := true }
    { allOkWorld 7 "/ip4/127.0.0.1/tcp/2345" with
        repoExists := Except.ok false }
    rfl rfl (Or.inl rfl) rfl rfl
  exact ⟨h.1, h.2.2.1⟩

/-- In the post-node stage with the repo's endpoint at `ep` and the three
reads succeeding, the listener is opened on `ep` (whatever the listen
outcome), every listen step uses `ep`, and no `SetAPIEndpoint` step occurs
beyond those of `inner`. -/
theorem afterNode_listen (w : World) (inner : List Step) (ep : String)
    (addrs : List String)
    (hr : w.apiEndpointRead = Except.ok ())
    (ha : w.netAddrsListen = Except.ok addrs)
    (hc : w.netConnect = Except.ok ())
    (hin : ∀ e2, Step.listen e2 ∉ inner) :
    Step.listen ep ∈ (afterNode w inner (Except.ok ()) ep).1 ∧
    (∀ e2, Step.listen e2 ∈ (afterNode w inner (Except.ok ()) ep).1 →
      e2 = ep) ∧
    (∀ a, Step.setAPIEndpoint a ∈ (afterNode w inner (Except.ok ()) ep).1 →
      Step.setAPIEndpoint a ∈ inner) := by
  cases hl : w.listenResult with
  | error e =>
    refine ⟨by simp [afterNode, hr, ha, hc, hl], ?_, ?_⟩
    · intro e2 hm
      simp [afterNode, hr, ha, hc, hl] at hm
      rcases hm with hm | hm
      · exact absurd hm (hin e2)
      · exact hm
    · intro a hm
      simpa [afterNode, hr, ha, hc, hl] using hm
  | ok u =>
    refine ⟨by simp [afterNode, hr, ha, hc, hl], ?_, ?_⟩
    · intro e2 hm
      simp [afterNode, hr, ha, hc, hl] at hm
      rcases hm with hm | hm
      · exact absurd hm (hin e2)
      · exact hm
    · intro a hm
      simpa [afterNode, hr, ha, hc, hl] using hm

/-- C3: under a bootstrap in which every external call up to `NetConnect`
succeeds, the endpoint override is applied exactly when the `api` option was
explicitly set: with `api` set to `9000` the listener is opened on
`/ip4/127.0.0.1/tcp/9000` (i.e. 127.0.0.1:9000) and on no other endpoint,
whatever endpoint the repository had persisted; with `api` not set, the
listener is opened on the repository's persisted endpoint and no
`SetAPIEndpoint` call is made at all. -/
theorem C3_api_override_iff_flag_set :
    ∀ (buildV : Nat) (fl : Flags) (w : World),
      bootstrapCallsOk buildV fl w →
      (fl.apiSet = true → fl.apiValue = "9000" →
        Step.listen "/ip4/127.0.0.1/tcp/9000" ∈ (runAction buildV fl w).1 ∧
        ∀ ep, Step.listen ep ∈ (runAction buildV fl w).1 →
          ep = "/ip4/127.0.0.1/tcp/9000") ∧
      (fl.apiSet = false →
        Step.listen w.persistedEndpoint ∈ (runAction buildV fl w).1 ∧
        (∀ ep, Step.listen ep ∈ (runAction buildV fl w).1 →
          ep = w.persistedEndpoint) ∧
        ∀ a, Step.setAPIEndpoint a ∉ (runAction buildV fl w).1) := by
  intro buildV fl w hok
  obtain ⟨h1, h2, h3, h4, h5, h6, h7, h8, ⟨addrs, h9⟩, h10⟩ := hok
  obtain ⟨htr, _⟩ := runAction_trace_decomp buildV fl w h1 h2 h3
  constructor
  · intro hset hval
    have hma : newMultiaddr "9000"
        = Except.ok "/ip4/127.0.0.1/tcp/9000" := rfl
    have hnn : nodeNew fl w
        = ([Step.setAPIEndpoint "/ip4/127.0.0.1/tcp/9000"], Except.ok (),
            "/ip4/127.0.0.1/tcp/9000") := by
      simp [nodeNew, hset, hval, hma, h6, h7]
    have has : afterSync fl w
        = afterNode w [Step.setAPIEndpoint "/ip4/127.0.0.1/tcp/9000"]
            (Except.ok ()) "/ip4/127.0.0.1/tcp/9000" := by
      simp [afterSync, h4, h5, hnn]
    have hli := afterNode_listen w
      [Step.setAPIEndpoint "/ip4/127.0.0.1/tcp/9000"]
      "/ip4/127.0.0.1/tcp/9000" addrs h8 h9 h10 (by simp)
    constructor
    · rw [htr, has]
      exact List.mem_append_right _ hli.1
    · intro ep hm
      rw [htr, has] at hm
      rcases List.mem_append.mp hm with hm | hm
      · rcases pre_steps fl _ hm with h | h | h <;> exact absurd h (by simp)
      · exact hli.2.1 ep hm
  · intro hset
    have hnn : nodeNew fl w = ([], Except.ok (), w.persistedEndpoint) := by
      simp [nodeNew, hset, h7]
    have has : afterSync fl w
        = afterNode w [] (Except.ok ()) w.persistedEndpoint := by
      simp [afterSync, h4, h5, hnn]
    have hli := afterNode_listen w [] w.persistedEndpoint addrs h8 h9 h10
      (by simp)
    refine ⟨?_, ?_, ?_⟩
    · rw [htr, has]
      exact List.mem_append_right _ hli.1
    · intro ep hm
      rw [htr, has] at hm
      rcases List.mem_append.mp hm with hm | hm
      · rcases pre_steps fl _ hm with h | h | h <;> exact absurd h (by simp)
      · exact hli.2.1 ep hm
    · intro a hm
      rw [htr, has] at hm
      rcases List.mem_append.mp hm with hm | hm
      · rcases pre_steps fl _ hm with h | h | h <;> exact absurd h (by simp)
      · exact absurd (hli.2.2 a hm) (by simp)

/-- C3 (witness): the theorem applied with the `api` option set to `9000`
over a repository whose persisted endpoint is port 2345, and with the
option not set. -/
theorem C3_witness :
    Step.listen "/ip4/127.0.0.1/tcp/9000" ∈ (runAction 7
      { defaultFlags with
          nosync := true, apiSet := true, apiValue := "9000" }
      (allOkWorld 7 "/ip4/127.0.0.1/tcp/2345")).1 ∧
    Step.listen "/ip4/127.0.0.1/tcp/2345" ∈ (runAction 7
      { defaultFlags with nosync := true }
      (allOkWorld 7 "/ip4/127.0.0.1/tcp/2345")).1 := by
  constructor
  · exact ((C3_api_override_iff_flag_set 7
      { defaultFlags with
          nosync := true, apiSet := true, apiValue := "9000" }
      (allOkWorld 7 "/ip4/127.0.0.1/tcp/2345")
      ⟨rfl, rfl, Or.inl rfl, rfl, rfl, rfl, rfl, rfl, ⟨[], rfl⟩, rfl⟩).1
      rfl rfl).1
  · exact ((C3_api_override_iff_flag_set 7
      { defaultFlags with nosync := true }
      (allOkWorld 7 "/ip4/127.0.0.1/tcp/2345")
      ⟨rfl, rfl, Or.inl rfl, rfl, rfl, rfl, rfl, rfl, ⟨[], rfl⟩, rfl⟩).2
      rfl).1

/-- C9: bootstrap is strictly sequential — the run's trace is always a
prefix of the canonical step order — and fail-fast: if serving is reached
it is the last step and the command's result is the serve result, while if
serving is never reached the command returns an error from the failing
bootstrap step. -/
theorem C9_sequential_bootstrap_fail_fast :
    ∀ (buildV : Nat) (fl : Flags) (w : World),
      (runAction buildV fl w).1 <+: fullRunTrace fl w ∧
      (Step.serve ∈ (runAction buildV fl w).1 →
        (runAction buildV fl w).2 = w.serveResult ∧
        ∃ t, (runAction buildV fl w).1 = t ++ [Step.serve]) ∧
      (Step.serve ∉ (runAction buildV fl w).1 →
        ∃ e, (runAction buildV fl w).2 = Except.error e) := by
  intro buildV fl w
  cases h1 : w.getFullNodeAPI with
  | error e =>
    have htr : runAction buildV fl w
        = ([Step.getFullNodeAPI], Except.error e) := by
      simp [runAction, h1]
    rw [htr]
    refine ⟨?_, by intro hmem; simp at hmem, fun _ => ⟨e, rfl⟩⟩
    exact ⟨[Step.getVersion] ++ (if fl.nosync then [] else [Step.syncWait])
      ++ fullBootTrace fl w, by simp [fullRunTrace]⟩
  | ok u =>
  cases h2 : w.versionResult with
  | error e =>
    have htr : runAction buildV fl w
        = ([Step.getFullNodeAPI, Step.getVersion], Except.error e) := by
      simp [runAction, h1, h2]
    rw [htr]
    refine ⟨?_, by intro hmem; simp at hmem, fun _ => ⟨e, rfl⟩⟩
    exact ⟨(if fl.nosync then [] else [Step.syncWait])
      ++ fullBootTrace fl w, by simp [fullRunTrace]⟩
  | ok v =>
  by_cases hv : v = buildV
  · subst hv
    have hser := afterSync_serve_characterization fl w
    cases hns : fl.nosync with
    | true =>
      have htr : runAction v fl w
          = ([Step.getFullNodeAPI, Step.getVersion] ++ (afterSync fl w).1,
              (afterSync fl w).2) := by
        simp [runAction, h1, h2, hns]
      rw [htr]
      refine ⟨?_, ?_, ?_⟩
      · simp [fullRunTrace, hns, List.cons_prefix_cons]
        exact afterSync_prefix fl w
      · intro hmem
        simp at hmem
        obtain ⟨hres, t, hteq⟩ := hser.1 hmem
        refine ⟨hres, ⟨[Step.getFullNodeAPI, Step.getVersion] ++ t, ?_⟩⟩
        rw [hteq]
        simp
      · intro hmem
        simp at hmem
        exact hser.2 hmem
    | false =>
      cases h3 : w.syncWaitResult with
      | error e =>
        have htr : runAction v fl w
            = ([Step.getFullNodeAPI, Step.getVersion, Step.syncWait],
                Except.error ("sync wait: " ++ e)) := by
          simp [runAction, h1, h2, hns, h3]
        rw [htr]
        refine ⟨?_, by intro hmem; simp at hmem,
          fun _ => ⟨"sync wait: " ++ e, rfl⟩⟩
        exact ⟨fullBootTrace fl w, by simp [fullRunTrace, hns]⟩
      | ok u2 =>
        have htr : runAction v fl w
            = ([Step.getFullNodeAPI, Step.getVersion, Step.syncWait]
                ++ (afterSync fl w).1, (afterSync fl w).2) := by
          simp [runAction, h1, h2, hns, h3]
        rw [htr]
        refine ⟨?_, ?_, ?_⟩
        · simp [fullRunTrace, hns, List.cons_prefix_cons]
          exact afterSync_prefix fl w
        · intro hmem
          simp at hmem
          obtain ⟨hres, t, hteq⟩ := hser.1 hmem
          refine ⟨hres,
            ⟨[Step.getFullNodeAPI, Step.getVersion, Step.syncWait] ++ t, ?_⟩⟩
          rw [hteq]
          simp
        · intro hmem
          simp at hmem
          exact hser.2 hmem
  · have htr : runAction buildV fl w
        = ([Step.getFullNodeAPI, Step.getVersion],
            Except.error (versionMismatchMsg buildV)) := by
      simp [runAction, h1, h2, hv]
    rw [htr]
    refine ⟨?_, by intro hmem; simp at hmem,
      fun _ => ⟨versionMismatchMsg buildV, rfl⟩⟩
    exact ⟨(if fl.nosync then [] else [Step.syncWait])
      ++ fullBootTrace fl w, by simp [fullRunTrace]⟩

/-- C9 (witness): the theorem's serve clause applied at a fully successful
concrete bootstrap: serving is reached and the command returns the serve
result. -/
theorem C9_witness :
    (runAction 7 { defaultFlags with nosync := true }
      (allOkWorld 7 "/ip4/127.0.0.1/tcp/2345")).2 = Except.ok () := by
  have h := (C9_sequential_bootstrap_fail_fast 7
    { defaultFlags with nosync := true }
    (allOkWorld 7 "/ip4/127.0.0.1/tcp/2345")).2.1 (by decide)
  exact h.1

/-- C1 (counterexample): at a concrete two-iteration script whose first
iteration's work-submission call fails, the pledge loop logs the submission
error and then performs a further capacity query and a further submission
call — so it is false that either kind of error terminates the loop with no
further queries or submissions.  (A `WorkerStats` error does `return`, run.go
line 200, but a `PledgeSector` error at line 208 only logs and the `for` loop
continues.) -/
theorem C1_counterexample :
    pledgeLoop pledgeErrScript =
      [PEvent.queryCall, PEvent.logSnapshot 1 1, PEvent.pledgeCall,
       PEvent.logPledgeError "pledge failed",
       PEvent.queryCall, PEvent.logSnapshot 1 1, PEvent.pledgeCall,
       PEvent.logPledgeSuccess] ∧
    noCallAfterErrorLog (pledgeLoop pledgeErrScript) = false := by
  constructor <;> rfl

/-- C1 (amended): a capacity-query error is logged and terminates the loop
entirely — whatever further iterations the environment would offer, no
further query or submission call occurs; a work-submission error, however,
is only logged and the loop proceeds to the next cycle. -/
theorem C1_query_error_terminates_submission_error_continues :
    (∀ (e : String) (pr : Except String Unit) (rest : List CycleInput),
      pledgeLoop (CycleInput.stats (Except.error e) pr :: rest)
        = [PEvent.queryCall, PEvent.logStatsError e]) ∧
    (∀ (w : WorkerStats) (e : String) (rest : List CycleInput),
      0 < w.localFree + w.remotesFree →
      pledgeLoop (CycleInput.stats (Except.ok w) (Except.error e) :: rest)
        = PEvent.queryCall
          :: PEvent.logSnapshot (w.localFree + w.remotesFree) (totalAvail w)
          :: PEvent.pledgeCall :: PEvent.logPledgeError e :: pledgeLoop rest) := by
  constructor
  · intro e pr rest
    simp [pledgeLoop, pledgeCycle]
  · intro w e rest h
    simp [pledgeLoop, pledgeCycle, h]

/-- C1 (witness): the amended theorem applied at a concrete query error and
at a concrete submission error with one free worker. -/
theorem C1_witness :
    pledgeLoop [CycleInput.stats (Except.error "rpc gone") (Except.ok ())]
      = [PEvent.queryCall, PEvent.logStatsError "rpc gone"] ∧
    pledgeLoop [CycleInput.stats (Except.ok oneFreeStats) (Except.error "x")]
      = [PEvent.queryCall, PEvent.logSnapshot 1 1, PEvent.pledgeCall,
         PEvent.logPledgeError "x"] := by
  constructor
  · exact C1_query_error_terminates_submission_error_continues.1
      "rpc gone" (Except.ok ()) []
  · have h := C1_query_error_terminates_submission_error_continues.2
      oneFreeStats "x" [] (by decide)
    simpa [oneFreeStats, totalAvail] using h

/-- C7: in every pledge-loop cycle whose capacity query returns a snapshot,
the snapshot — free `localFree + remotesFree` against available
`localTotal + remotesTotal - localReserved` — is logged regardless of the
submission outcome; the cycle makes exactly one work-submission call when
free capacity is strictly positive and none when `localFree + remotesFree`
is zero, and the loop continues to its next cycle. -/
theorem C7_cycle_logs_snapshot_and_submits_iff_free :
    ∀ (w : WorkerStats) (pr : Except String Unit),
      PEvent.logSnapshot (w.localFree + w.remotesFree) (totalAvail w)
          ∈ (pledgeCycle (CycleInput.stats (Except.ok w) pr)).1 ∧
      ((pledgeCycle (CycleInput.stats (Except.ok w) pr)).1).count
            PEvent.pledgeCall
        = (if 0 < w.localFree + w.remotesFree then 1 else 0) ∧
      (pledgeCycle (CycleInput.stats (Except.ok w) pr)).2 = true := by
  intro w pr
  by_cases h : 0 < w.localFree + w.remotesFree
  · cases pr <;>
      simp [pledgeCycle, h, List.count_cons, List.count_nil]
  · cases pr <;>
      simp [pledgeCycle, Nat.not_lt.mp h, h, List.count_cons, List.count_nil]

/-- C4: for every verification predicate and every inbound request — any
credential, any path, hence any of the three routes including the
diagnostics catch-all — the credential is verified before any route handler:
when verification fails the response is the authentication failure and the
request is dispatched to no route target; when it succeeds the request is
forwarded unmodified to the router. -/
theorem C4_auth_gate_wraps_every_route :
    ∀ (verify : String → Bool) (req : Request),
      (verify req.credential = false →
        handleRequest verify req = Response.authFailure ∧
        ∀ t : RouteTarget, handleRequest verify req ≠ Response.handled t) ∧
      (verify req.credential = true →
        handleRequest verify req = Response.handled (muxRoute req.path)) := by
  intro verify req
  constructor
  · intro h
    constructor
    · simp [handleRequest, authHandler, h]
    · intro t
      simp [handleRequest, authHandler, h]
  · intro h
    simp [handleRequest, authHandler, h]

/-- C4 (witness): with the predicate accepting exactly the credential
`"secret"`, a bad credential is rejected on the diagnostics catch-all path
and a good one reaches the RPC route. -/
theorem C4_witness :
    handleRequest (fun c => c == "secret")
        { credential := "wrong", path := "/debug/pprof" }
      = Response.authFailure ∧
    handleRequest (fun c => c == "secret")
        { credential := "secret", path := "/rpc/v0" }
      = Response.handled RouteTarget.rpcServer := by
  constructor
  · exact ((C4_auth_gate_wraps_every_route (fun c => c == "secret")
      { credential := "wrong", path := "/debug/pprof" }).1 (by decide)).1
  · have h := (C4_auth_gate_wraps_every_route (fun c => c == "secret")
      { credential := "secret", path := "/rpc/v0" }).2 (by decide)
    simpa [muxRoute] using h

/-- C8: every request whose path starts with `/` is dispatched to exactly
one of the three handlers, first match wins in the fixed registration order:
the exact path `/rpc/v0` to the RPC server, otherwise any `/remote`-prefixed
path to the node's streaming handler, otherwise the pprof catch-all. -/
theorem C8_first_match_routing :
    ∀ path : String, strPrefixOf "/" path = true →
      (muxRoute path = RouteTarget.rpcServer ∨
        muxRoute path = RouteTarget.serveRemote ∨
        muxRoute path = RouteTarget.pprofMux) ∧
      (muxRoute path = RouteTarget.rpcServer ↔ path = "/rpc/v0") ∧
      (muxRoute path = RouteTarget.serveRemote ↔
        path ≠ "/rpc/v0" ∧ strPrefixOf "/remote" path = true) ∧
      (muxRoute path = RouteTarget.pprofMux ↔
        path ≠ "/rpc/v0" ∧ strPrefixOf "/remote" path = false) := by
  intro path h
  unfold muxRoute
  split_ifs <;> simp_all

/-- C8 (witness): the routing theorem applied at `/remote/sectors`, a path
matched by the second rule. -/
theorem C8_witness :
    muxRoute "/remote/sectors" = RouteTarget.serveRemote := by
  exact ((C8_first_match_routing "/remote/sectors"
    (by decide)).2.2.1).mpr ⟨by decide, by decide⟩

/-- C5: on the first termination signal the handler calls the node's stop
(at position 1, right after the shutdown log line) strictly before the
listener's shutdown; the listener shutdown call is present whatever the
node-stop outcome, and a node-stop failure is logged. -/
theorem C5_node_stops_before_listener_and_failures_isolated :
    ∀ (stopResult shutdownResult : Except String Unit),
      (shutdownHandler stopResult shutdownResult)[1]?
          = some SEvent.nodeStopCall ∧
      (∃ j, 1 < j ∧
        (shutdownHandler stopResult shutdownResult)[j]?
          = some SEvent.listenerShutdownCall) ∧
      (∀ e, stopResult = Except.error e →
        SEvent.logNodeStopError e
          ∈ shutdownHandler stopResult shutdownResult) := by
  intro stopResult shutdownResult
  cases stopResult <;> cases shutdownResult
  · exact ⟨rfl, ⟨3, by omega, rfl⟩,
      by intro e he; injection he with h; subst h; simp [shutdownHandler]⟩
  · exact ⟨rfl, ⟨3, by omega, rfl⟩,
      by intro e he; injection he with h; subst h; simp [shutdownHandler]⟩
  · exact ⟨rfl, ⟨2, by omega, rfl⟩, by intro e he; cases he⟩
  · exact ⟨rfl, ⟨2, by omega, rfl⟩, by intro e he; cases he⟩

/-- C5 (witness): with a failing node stop and a succeeding listener
shutdown, the failure is logged and the listener shutdown call still
appears, after the node stop call. -/
theorem C5_witness :
    SEvent.logNodeStopError "node stuck"
        ∈ shutdownHandler (Except.error "node stuck") (Except.ok ()) ∧
    (shutdownHandler (Except.error "node stuck") (Except.ok ()))[1]?
        = some SEvent.nodeStopCall ∧
    (shutdownHandler (Except.error "node stuck") (Except.ok ()))[3]?
        = some SEvent.listenerShutdownCall := by
  refine ⟨?_, ?_, by rfl⟩
  · exact (C5_node_stops_before_listener_and_failures_isolated
      (Except.error "node stuck") (Except.ok ())).2.2 "node stuck" rfl
  · exact (C5_node_stops_before_listener_and_failures_isolated
      (Except.error "node stuck") (Except.ok ())).1

/-- C10: the shutdown handler's last event is always the
`Graceful shutdown successful` log line — in particular also when the node
stop and/or the listener shutdown returned an error, so this log line does
not imply that either step succeeded. -/
theorem C10_success_log_unconditional :
    ∀ (stopResult shutdownResult : Except String Unit),
      (shutdownHandler stopResult shutdownResult).getLast?
        = some SEvent.logGracefulSuccess := by
  intro stopResult shutdownResult
  cases stopResult <;> cases shutdownResult <;> rfl

end LotusRun
